import Mathlib

/-!
# Verification of HostHunter (src/wolf.go)

A shallow embedding of the bulk HTTP availability prober in `src/wolf.go`.
The network is modelled by an oracle mapping the requested URL to a probe
outcome (a transport error or a final HTTP status code after redirects).
Goroutines and channels are modelled by explicit state passing for the
sequential semantics and by permutations / atomic-event interleavings for
the concurrent claims.  Wall-clock durations are not modelled (no claim
depends on a duration value).
-/

namespace HostHunter

/-- Outcome of one HTTP GET against a URL: either a transport/protocol
error (carrying a description, as Go's `error` does) or a response with a
final status code (after the client's transparent redirect following). -/
inductive ProbeOutcome where
  | failure (msg : String)
  | response (status : Nat)
  deriving DecidableEq, Repr

/-- The network/transport oracle: what `client.Get(url)` returns. -/
def Oracle := String → ProbeOutcome

/-- `Result` from src/wolf.go lines 48-53.  `StatusCode` is a Go `int`
whose zero value `0` is kept when the error path returns early; `Error`
is `none` when the Go `error` field is nil.  `Duration` is not modelled. -/
structure Result where
  Domain : String
  StatusCode : Nat
  Error : Option String
  deriving DecidableEq, Repr

/-- The mutable shared state of `StatusChecker` (src/wolf.go lines 56-63):
the successful-domain list and the two counters.  The HTTP client and the
start time are not part of the shared mutable data. -/
structure StatusChecker where
  successfulDomains : List String
  totalDomains : Nat
  processedDomains : Nat
  deriving DecidableEq, Repr

/-- `NewStatusChecker` (src/wolf.go lines 66-88), restricted to the state
fields: empty success list, zero processed counter. -/
def NewStatusChecker (totalDomains : Nat) : StatusChecker :=
  { successfulDomains := [], totalDomains := totalDomains, processedDomains := 0 }

/-- Go's `strings.HasPrefix(s, p)`: `p` is a leading substring of `s`.
(Both arguments here are ASCII, so byte- and character-level agree.) -/
def hasPfx (s p : String) : Bool :=
  p.data.isPrefixOf s.data

/-- The normalization step of `checkDomain` (src/wolf.go lines 93-95):
`if !strings.HasPrefix(domain, "http") { domain = "https://" + domain }`. -/
def normalize (domain : String) : String :=
  if hasPfx domain "http" then domain else "https://" ++ domain

/-- `strings.TrimPrefix(domain, "https://")` as used at src/wolf.go
line 110: drop a leading `"https://"` when present, otherwise return the
string unchanged (`"https://"` is 8 ASCII characters = 8 bytes). -/
def trimHttps (s : String) : String :=
  if hasPfx s "https://" then String.mk (s.data.drop 8) else s

/-- `checkDomain` (src/wolf.go lines 91-120) with the shared state passed
explicitly.  On transport error it returns early with the error and the
zero-value status code; on a response with status in `[1, 500]` it strips
`"https://"` from the (normalized) domain, appends it to
`successfulDomains` under the mutex, and returns that stripped domain in
the `Result`; otherwise the state is untouched and the normalized domain
is returned with the status. -/
def checkDomain (oracle : Oracle) (sc : StatusChecker) (domain : String) :
    StatusChecker × Result :=
  let domain := normalize domain
  match oracle domain with
  | ProbeOutcome.failure msg =>
      (sc, { Domain := domain, StatusCode := 0, Error := some msg })
  | ProbeOutcome.response status =>
      if 1 ≤ status ∧ status ≤ 500 then
        let domain := trimHttps domain
        ({ sc with successfulDomains := sc.successfulDomains ++ [domain] },
         { Domain := domain, StatusCode := status, Error := none })
      else
        (sc, { Domain := domain, StatusCode := status, Error := none })

/-- The `Result` value `checkDomain` produces for a domain; it depends
only on the oracle and the domain, not on the shared state. -/
def resultOf (oracle : Oracle) (domain : String) : Result :=
  (checkDomain oracle (NewStatusChecker 0) domain).2

/-- Whether the probe of `domain` qualifies it for `successfulDomains`:
no transport error and a final status code in the inclusive range
`[1, 500]` (the condition at src/wolf.go line 108). -/
def qualifies (oracle : Oracle) (domain : String) : Bool :=
  match oracle (normalize domain) with
  | ProbeOutcome.failure _ => false
  | ProbeOutcome.response status => decide (1 ≤ status ∧ status ≤ 500)

/-- The entry a probe of `domain` contributes to `successfulDomains`
(`none` when it does not qualify): the normalized domain with a leading
`"https://"` stripped. -/
def successEntry (oracle : Oracle) (domain : String) : Option String :=
  match oracle (normalize domain) with
  | ProbeOutcome.failure _ => none
  | ProbeOutcome.response status =>
      if 1 ≤ status ∧ status ≤ 500 then some (trimHttps (normalize domain))
      else none

/-- One worker's consume loop (src/wolf.go lines 123-128) over the list of
domains it dequeues: it calls `checkDomain` on each and emits one `Result`
per domain, threading the shared state. -/
def workerRun (oracle : Oracle) (sc : StatusChecker) :
    List String → StatusChecker × List Result
  | [] => (sc, [])
  | d :: ds =>
      let p := checkDomain oracle sc d
      let q := workerRun oracle p.1 ds
      (q.1, p.2 :: q.2)

/-- The aggregator `processResults` (src/wolf.go lines 131-147): for each
result, under the mutex, increment `processedDomains` and compute the
completion percentage `processedDomains / totalDomains * 100`; emit one
printed line per result, carrying that percentage.  Percentages are
modelled exactly over `ℚ` (the Go code uses `float64`; both `M/M*100 = 100`
and monotonicity are exact there as well since rounding is monotone). -/
def processResults (sc : StatusChecker) :
    List Result → StatusChecker × List (Result × ℚ)
  | [] => (sc, [])
  | r :: rs =>
      let sc' := { sc with processedDomains := sc.processedDomains + 1 }
      let pct : ℚ := (sc'.processedDomains : ℚ) / (sc'.totalDomains : ℚ) * 100
      let q := processResults sc' rs
      (q.1, (r, pct) :: q.2)

/-- Which print branch `processResults` takes for a result
(src/wolf.go lines 138-145): the gray `000 Failed` line iff
`result.Error != nil`, the green status line otherwise. -/
inductive PrintBranch where
  | failureLine
  | successLine
  deriving DecidableEq, Repr

/-- Branch selection of src/wolf.go line 138. -/
def printBranch (r : Result) : PrintBranch :=
  if r.Error.isSome then PrintBranch.failureLine else PrintBranch.successLine

/-! ## Atomic mutation events

Every mutation of the shared state is guarded by the single mutex `sc.mu`:
the append at src/wolf.go lines 109-112 and the counter increment at lines
133-136.  A concurrent execution is therefore a sequence of atomic events;
any interleaving of N workers over M domains performs the same multiset of
events, in some order. -/

/-- One lock-protected mutation of the shared state. -/
inductive Event where
  | append (domain : String)
  | inc
  deriving DecidableEq, Repr

/-- Apply one atomic event to the shared state. -/
def applyEvent (sc : StatusChecker) : Event → StatusChecker
  | Event.append d => { sc with successfulDomains := sc.successfulDomains ++ [d] }
  | Event.inc => { sc with processedDomains := sc.processedDomains + 1 }

/-- Replay a sequence of atomic events. -/
def runEvents (sc : StatusChecker) (es : List Event) : StatusChecker :=
  es.foldl applyEvent sc

/-- The multiset of lock-protected mutations a full run over `domains`
performs, written in one canonical order: one append per qualifying
domain occurrence (workers, src/wolf.go line 111) and one counter
increment per result (aggregator, line 134).  Every actual interleaving
is a permutation of this list. -/
def runEventPool (oracle : Oracle) (domains : List String) : List Event :=
  (domains.filterMap (successEntry oracle)).map Event.append
    ++ List.replicate domains.length Event.inc

/-! ## I/O actions of one probe

The externally visible actions `checkDomain` and `worker` perform for one
domain, in program order: the single GET (src/wolf.go line 97), the
deferred `resp.Body.Close()` (line 105, running when `checkDomain`
returns), and the worker's send on the result channel (line 126).  The
source never reads the response body — there is no `io.Copy`/`ReadAll` —
so no read action ever occurs. -/

/-- An externally visible action of a worker while handling one domain. -/
inductive WorkerAction where
  | get (url : String)
  | readBody
  | closeBody
  | emit (r : Result)
  deriving DecidableEq, Repr

/-- The action trace of `worker` for a single domain (src/wolf.go lines
97, 105, 126): the GET; on the error path no body exists, on the response
path the deferred `Close` fires when `checkDomain` returns; then the
worker emits the result on the channel. -/
def workerTrace (oracle : Oracle) (domain : String) : List WorkerAction :=
  let url := normalize domain
  match oracle url with
  | ProbeOutcome.failure _ =>
      [WorkerAction.get url, WorkerAction.emit (resultOf oracle domain)]
  | ProbeOutcome.response _ =>
      [WorkerAction.get url, WorkerAction.closeBody,
       WorkerAction.emit (resultOf oracle domain)]

/-- Whether an event is the aggregator's counter increment. -/
def isInc : Event → Bool
  | Event.inc => true
  | Event.append _ => false

/-- The domains appended by a sequence of events, in event order. -/
def appendsOf (es : List Event) : List String :=
  es.filterMap fun e =>
    match e with
    | Event.append d => some d
    | Event.inc => none

/-! ## The `main` entry point

`main` (src/wolf.go lines 157-246) modelled as a pure function of the
argument vector `argv` (Go's `os.Args`, program name included), a
filesystem `fs` mapping a path to its lines when the file opens, and the
network oracle.  The interactive worker-count prompt re-prompts until a
positive number arrives and never exits, so it does not affect the exit
report.  The report records the exit status, how many results were
produced, and whether a worker was started / the summary was printed. -/

/-- Go's `strings.TrimSpace`: remove leading and trailing whitespace. -/
def trimSpace (s : String) : String :=
  String.mk
    (((s.data.dropWhile Char.isWhitespace).reverse.dropWhile Char.isWhitespace).reverse)

/-- One scanned line of the host file (src/wolf.go lines 173-178):
trim whitespace, keep the line only when non-blank. -/
def readLine (line : String) : Option String :=
  let d := trimSpace line
  if d = "" then none else some d

/-- What a run of `main` did. -/
structure RunReport where
  exitCode : Nat
  resultsProduced : Nat
  workersStarted : Bool
  summaryPrinted : Bool
  failedCount : Nat
  deriving DecidableEq, Repr

/-- `main` (src/wolf.go lines 157-246).  The three fatal usage errors
exit with status 1 before any worker starts; otherwise the pipeline runs
to completion, the summary prints `totalDomains - len(successfulDomains)`
as the failed count (line 238), and the process exits with status 0. -/
def mainRun (argv : List String) (fs : String → Option (List String))
    (oracle : Oracle) : RunReport :=
  if argv.length < 2 then
    { exitCode := 1, resultsProduced := 0, workersStarted := false,
      summaryPrinted := false, failedCount := 0 }
  else
    match fs (argv.getD 1 "") with
    | none =>
        { exitCode := 1, resultsProduced := 0, workersStarted := false,
          summaryPrinted := false, failedCount := 0 }
    | some lines =>
        let domainsList := lines.filterMap readLine
        let totalDomains := domainsList.length
        if totalDomains = 0 then
          { exitCode := 1, resultsProduced := 0, workersStarted := false,
            summaryPrinted := false, failedCount := 0 }
        else
          let pool := workerRun oracle (NewStatusChecker totalDomains) domainsList
          let final := (processResults pool.1 pool.2).1
          { exitCode := 0, resultsProduced := pool.2.length,
            workersStarted := true, summaryPrinted := true,
            failedCount := totalDomains - final.successfulDomains.length }

/-! ## Concrete oracles (mock transports) used to evaluate the theorems
on closed inputs. -/

/-- Every URL answers with HTTP 200. -/
def oracle200 : Oracle := fun _ => ProbeOutcome.response 200

/-- Every URL answers with status 501 (outside the `[1, 500]` window). -/
def oracle501 : Oracle := fun _ => ProbeOutcome.response 501

/-- Every URL fails at the transport level. -/
def oracleDown : Oracle := fun _ => ProbeOutcome.failure "connection refused"

/-! ## Basic lemmas about the embedded operations -/

theorem hasPfx_append_self (p d : String) : hasPfx (p ++ d) p = true := by
  unfold hasPfx
  rw [String.data_append, List.isPrefixOf_iff_prefix]
  exact List.prefix_append _ _

theorem trimHttps_append (d : String) : trimHttps ("https://" ++ d) = d := by
  have h : ("https://" ++ d).data.drop 8 = d.data := by
    rw [String.data_append]
    have h8 : ("https://".data).length = 8 := rfl
    rw [← h8, List.drop_left]
  simp [trimHttps, hasPfx_append_self, h]

theorem checkDomain_eq (oracle : Oracle) (sc : StatusChecker) (d : String) :
    checkDomain oracle sc d =
      ({ sc with successfulDomains :=
            sc.successfulDomains ++ (successEntry oracle d).toList },
       resultOf oracle d) := by
  unfold checkDomain successEntry resultOf NewStatusChecker
  cases h : oracle (normalize d) with
  | failure msg => simp [checkDomain, h]
  | response s =>
      by_cases hs : 1 ≤ s ∧ s ≤ 500
      · simp [checkDomain, h, hs]
      · simp [checkDomain, h, hs]

theorem workerRun_eq (oracle : Oracle) (ds : List String) : ∀ sc : StatusChecker,
    workerRun oracle sc ds =
      ({ sc with successfulDomains :=
            sc.successfulDomains ++ ds.filterMap (successEntry oracle) },
       ds.map (resultOf oracle)) := by
  induction ds with
  | nil => intro sc; simp [workerRun]
  | cons d ds ih =>
      intro sc
      simp only [workerRun, checkDomain_eq, ih, List.filterMap_cons, List.map_cons]
      cases successEntry oracle d <;> simp

theorem processResults_fst (rs : List Result) : ∀ sc : StatusChecker,
    (processResults sc rs).1 =
      { sc with processedDomains := sc.processedDomains + rs.length } := by
  induction rs with
  | nil => intro sc; simp [processResults]
  | cons r rs ih =>
      intro sc
      simp [processResults, ih, Nat.add_assoc, Nat.add_comm 1 rs.length]

theorem processResults_pcts (rs : List Result) : ∀ sc : StatusChecker,
    (processResults sc rs).2.map Prod.snd =
      (List.range rs.length).map fun i =>
        ((sc.processedDomains + i + 1 : ℕ) : ℚ) / (sc.totalDomains : ℚ) * 100 := by
  induction rs with
  | nil => intro sc; simp [processResults]
  | cons r rs ih =>
      intro sc
      simp only [processResults, List.map_cons, List.length_cons,
        List.range_succ_eq_map, List.map_map, ih]
      refine List.cons_eq_cons.mpr ⟨by norm_num, ?_⟩
      apply List.map_congr_left
      intro i _
      have h : sc.processedDomains + 1 + i + 1 = sc.processedDomains + (i + 1) + 1 := by omega
      simp only [Function.comp_apply, h]

theorem successEntry_isSome (oracle : Oracle) (d : String) :
    (successEntry oracle d).isSome = qualifies oracle d := by
  unfold successEntry qualifies
  cases oracle (normalize d) with
  | failure msg => rfl
  | response s => by_cases hs : 1 ≤ s ∧ s ≤ 500 <;> simp [hs]

theorem length_filterMap_successEntry (oracle : Oracle) (domains : List String) :
    (domains.filterMap (successEntry oracle)).length
      = domains.countP fun d => qualifies oracle d := by
  induction domains with
  | nil => rfl
  | cons d ds ih =>
      rw [List.filterMap_cons, List.countP_cons]
      have hq := successEntry_isSome oracle d
      cases h : successEntry oracle d with
      | none => rw [h] at hq; simp [← hq, ih]
      | some a => rw [h] at hq; simp [← hq, ih]

theorem runEvents_eq (es : List Event) : ∀ sc : StatusChecker,
    runEvents sc es =
      { sc with successfulDomains := sc.successfulDomains ++ appendsOf es,
                processedDomains := sc.processedDomains + es.countP isInc } := by
  induction es with
  | nil => intro sc; simp [runEvents, appendsOf]
  | cons e es ih =>
      intro sc
      have hstep : runEvents sc (e :: es) = runEvents (applyEvent sc e) es := rfl
      rw [hstep, ih]
      cases e with
      | append d =>
          simp [applyEvent, appendsOf, List.filterMap_cons, List.countP_cons, isInc]
      | inc =>
          simp only [applyEvent, appendsOf, List.filterMap_cons, List.countP_cons, isInc]
          simp [Nat.add_assoc, Nat.add_comm 1 (es.countP isInc), appendsOf]

theorem countP_isInc_replicate (n : Nat) :
    (List.replicate n Event.inc).countP isInc = n := by
  induction n with
  | zero => rfl
  | succ n ih => simp [List.replicate_succ, List.countP_cons, isInc, ih]

theorem appendsOf_replicate (n : Nat) :
    appendsOf (List.replicate n Event.inc) = [] := by
  induction n with
  | zero => rfl
  | succ n ih => simp [List.replicate_succ, appendsOf, List.filterMap_cons, ih]

theorem countP_isInc_pool (oracle : Oracle) (domains : List String) :
    (runEventPool oracle domains).countP isInc = domains.length := by
  unfold runEventPool
  rw [List.countP_append, countP_isInc_replicate]
  have h : ((domains.filterMap (successEntry oracle)).map Event.append).countP isInc = 0 := by
    induction domains.filterMap (successEntry oracle) with
    | nil => rfl
    | cons a l ih => simp [List.countP_cons, isInc, ih]
  omega

theorem appendsOf_pool (oracle : Oracle) (domains : List String) :
    appendsOf (runEventPool oracle domains) = domains.filterMap (successEntry oracle) := by
  unfold runEventPool appendsOf
  rw [List.filterMap_append]
  have h1 : ∀ l : List String,
      (l.map Event.append).filterMap (fun e =>
        match e with
        | Event.append d => some d
        | Event.inc => none) = l := by
    intro l
    induction l with
    | nil => rfl
    | cons a l ih => simp [List.filterMap_cons, ih]
  rw [h1]
  have h2 := appendsOf_replicate domains.length
  unfold appendsOf at h2
  rw [h2, List.append_nil]

theorem countP_not_qualifies (oracle : Oracle) (l : List String) :
    (l.countP fun x => !(qualifies oracle x))
      = l.length - (l.countP fun x => qualifies oracle x) := by
  induction l with
  | nil => rfl
  | cons a l ih =>
      have hle : (l.countP fun x => qualifies oracle x) ≤ l.length :=
        List.countP_le_length _
      by_cases h : qualifies oracle a = true <;>
        simp [List.countP_cons, h, ih] <;> omega

/-! ## The claims -/

/-- C1: for every non-empty input list of M domains and every worker count
N ≥ 1 — the pool being any split of the input into N worker queues and the
result stream any completion order — the Aggregator consumes exactly M
`Result`s, one per input domain, and `processedDomains` equals M once the
result channel is drained. -/
theorem aggregator_consumes_exactly_M (oracle : Oracle) (domains : List String)
    (N : Nat) (ws : List (List String)) (rs : List Result)
    (hne : domains ≠ []) (hN : 1 ≤ N) (hws : ws.length = N)
    (hjoin : ws.flatten.Perm domains)
    (hrs : rs.Perm (ws.map fun w => w.map (resultOf oracle)).flatten) :
    rs.Perm (domains.map (resultOf oracle))
    ∧ rs.length = domains.length
    ∧ (processResults
        (workerRun oracle (NewStatusChecker domains.length) domains).1
        rs).1.processedDomains = domains.length := by
  have hpool : ((ws.map fun w => w.map (resultOf oracle)).flatten)
      = ws.flatten.map (resultOf oracle) :=
    (List.map_flatten _ _).symm
  have h1 : rs.Perm (domains.map (resultOf oracle)) := by
    rw [hpool] at hrs
    exact hrs.trans (hjoin.map _)
  have h2 : rs.length = domains.length := by
    rw [h1.length_eq, List.length_map]
  refine ⟨h1, h2, ?_⟩
  rw [processResults_fst]
  simp [workerRun_eq, NewStatusChecker, h2]

/-- Witness for `aggregator_consumes_exactly_M` at a one-element input
with a single worker. -/
theorem aggregator_consumes_exactly_M_witness :
    [resultOf oracle200 "a.com"].Perm
        ((["a.com"] : List String).map (resultOf oracle200))
    ∧ [resultOf oracle200 "a.com"].length = (["a.com"] : List String).length
    ∧ (processResults
        (workerRun oracle200 (NewStatusChecker (["a.com"] : List String).length)
          ["a.com"]).1
        [resultOf oracle200 "a.com"]).1.processedDomains
      = (["a.com"] : List String).length :=
  aggregator_consumes_exactly_M oracle200 ["a.com"] 1 [["a.com"]]
    [resultOf oracle200 "a.com"] (by simp) (by omega) rfl
    (List.Perm.refl _) (List.Perm.refl _)

/-- C2: after a full run, `successfulDomains` is exactly the per-occurrence
list of qualifying entries: one entry (the normalized domain with a leading
`"https://"` stripped) per input occurrence whose probe returned a status
in `[1, 500]` with no transport error, and nothing else — so no entry for
a status outside `[1, 500]`, duplicates in the input produce duplicate
entries, and a response with status above 500 is still reported in a
`Result` (status carried, error nil) but never appended. -/
theorem successfulDomains_characterization (oracle : Oracle) (domains : List String) :
    (workerRun oracle (NewStatusChecker domains.length) domains).1.successfulDomains
        = domains.filterMap (successEntry oracle)
    ∧ (∀ d s, oracle (normalize d) = ProbeOutcome.response s → 1 ≤ s → s ≤ 500 →
        successEntry oracle d = some (trimHttps (normalize d)))
    ∧ (∀ d s, oracle (normalize d) = ProbeOutcome.response s → 500 < s →
        successEntry oracle d = none
        ∧ resultOf oracle d
            = { Domain := normalize d, StatusCode := s, Error := none }) := by
  refine ⟨?_, ?_, ?_⟩
  · rw [workerRun_eq]
    simp [NewStatusChecker]
  · intro d s h h1 h2
    simp [successEntry, h, h1, h2]
  · intro d s h hgt
    have hns : ¬(1 ≤ s ∧ s ≤ 500) := by omega
    constructor
    · simp [successEntry, h, hns]
    · simp [resultOf, checkDomain, NewStatusChecker, h, hns]

/-- Witness for `successfulDomains_characterization`: a 200 response
qualifies, a 501 response is reported but contributes no entry. -/
theorem successfulDomains_characterization_witness :
    successEntry oracle200 "a.com" = some (trimHttps (normalize "a.com"))
    ∧ (successEntry oracle501 "a.com" = none
       ∧ resultOf oracle501 "a.com"
           = { Domain := normalize "a.com", StatusCode := 501, Error := none }) :=
  ⟨(successfulDomains_characterization oracle200 ["a.com"]).2.1 "a.com" 200 rfl
      (by omega) (by omega),
   (successfulDomains_characterization oracle501 ["a.com"]).2.2 "a.com" 501 rfl
      (by omega)⟩

/-- C3: both mutations of the shared state — a worker's append
(src/wolf.go lines 109-112) and the aggregator's increment (lines 133-136)
— are atomic because each holds the single mutex `sc.mu`, so a concurrent
execution of N workers over M domains is some interleaving (permutation)
of the multiset of atomic events of the run.  For every such interleaving
no update is lost: the final counter equals M and the final list length
equals the number of qualifying results. -/
theorem mutex_no_lost_updates (oracle : Oracle) (domains : List String)
    (es : List Event) (h : es.Perm (runEventPool oracle domains)) :
    (runEvents (NewStatusChecker domains.length) es).processedDomains
        = domains.length
    ∧ (runEvents (NewStatusChecker domains.length) es).successfulDomains.length
        = (domains.countP fun d => qualifies oracle d) := by
  rw [runEvents_eq]
  constructor
  · simp [NewStatusChecker, h.countP_eq isInc, countP_isInc_pool]
  · have hp : (appendsOf es).Perm (appendsOf (runEventPool oracle domains)) :=
      h.filterMap _
    have hlen := hp.length_eq
    rw [appendsOf_pool, length_filterMap_successEntry] at hlen
    simp [NewStatusChecker, hlen]

/-- Witness for `mutex_no_lost_updates`: a shuffled interleaving of the
events of a two-domain run with all-200 responses. -/
theorem mutex_no_lost_updates_witness :
    (runEvents (NewStatusChecker (["a.com", "b.com"] : List String).length)
        [Event.inc, Event.append "b.com", Event.append "a.com", Event.inc]).processedDomains
      = (["a.com", "b.com"] : List String).length
    ∧ (runEvents (NewStatusChecker (["a.com", "b.com"] : List String).length)
        [Event.inc, Event.append "b.com", Event.append "a.com", Event.inc]).successfulDomains.length
      = ((["a.com", "b.com"] : List String).countP fun d => qualifies oracle200 d) :=
  mutex_no_lost_updates oracle200 ["a.com", "b.com"]
    [Event.inc, Event.append "b.com", Event.append "a.com", Event.inc]
    (by decide)

/-- C4: across the per-result lines printed by the aggregator — the input
being any completion order of the M results — the completion percentage
`processedDomains / totalDomains * 100` is monotonically non-decreasing,
and the percentage printed with the final result equals 100. -/
theorem percentage_monotone_final (oracle : Oracle) (domains : List String)
    (rs : List Result) (hne : domains ≠ [])
    (hrs : rs.Perm (domains.map (resultOf oracle))) :
    List.Sorted (· ≤ ·)
      ((processResults
          (workerRun oracle (NewStatusChecker domains.length) domains).1
          rs).2.map Prod.snd)
    ∧ ((processResults
          (workerRun oracle (NewStatusChecker domains.length) domains).1
          rs).2.map Prod.snd).getLast? = some 100 := by
  have hM : domains.length ≠ 0 := by
    simpa using hne
  have hlen : rs.length = domains.length := by
    rw [hrs.length_eq, List.length_map]
  have hpcts : (processResults
        (workerRun oracle (NewStatusChecker domains.length) domains).1
        rs).2.map Prod.snd
      = (List.range domains.length).map fun i =>
          ((i + 1 : ℕ) : ℚ) / (domains.length : ℚ) * 100 := by
    rw [processResults_pcts]
    simp [workerRun_eq, NewStatusChecker, hlen]
  rw [hpcts]
  have hMpos : (0 : ℚ) < (domains.length : ℚ) := by
    exact_mod_cast Nat.pos_of_ne_zero hM
  constructor
  · refine List.Pairwise.map _ ?_ (List.pairwise_lt_range domains.length)
    intro i j hij
    have hcast : ((i + 1 : ℕ) : ℚ) ≤ ((j + 1 : ℕ) : ℚ) := by
      exact_mod_cast Nat.succ_le_succ hij.le
    gcongr
  · obtain ⟨m, hm⟩ : ∃ m, domains.length = m + 1 :=
      ⟨domains.length - 1, by omega⟩
    rw [hm, show List.range (m + 1) = List.range m ++ [m] from List.range_succ m,
      List.map_append, List.map_singleton, List.getLast?_concat]
    have hne' : ((m : ℚ) + 1) ≠ 0 := by positivity
    simp [div_self hne']

/-- Witness for `percentage_monotone_final` at a one-domain run. -/
theorem percentage_monotone_final_witness :
    List.Sorted (· ≤ ·)
      ((processResults
          (workerRun oracle200
            (NewStatusChecker (["a.com"] : List String).length) ["a.com"]).1
          [resultOf oracle200 "a.com"]).2.map Prod.snd)
    ∧ ((processResults
          (workerRun oracle200
            (NewStatusChecker (["a.com"] : List String).length) ["a.com"]).1
          [resultOf oracle200 "a.com"]).2.map Prod.snd).getLast? = some 100 :=
  percentage_monotone_final oracle200 ["a.com"] [resultOf oracle200 "a.com"]
    (by simp) (List.Perm.refl _)

/-- C5: a domain that does not start with `"http"` is normalized to
`"https://" ++ domain` before the GET is issued; a domain that already
starts with `"http"` is passed to the GET unmodified.  The third conjunct
ties the normalization to the request: the first action of a worker's
trace for a domain is always the GET on the normalized URL. -/
theorem normalize_spec (d : String) :
    (hasPfx d "http" = false → normalize d = "https://" ++ d)
    ∧ (hasPfx d "http" = true → normalize d = d)
    ∧ ∀ oracle : Oracle,
        (workerTrace oracle d).head? = some (WorkerAction.get (normalize d)) := by
  refine ⟨fun h => ?_, fun h => ?_, fun oracle => ?_⟩
  · simp [normalize, h]
  · simp [normalize, h]
  · cases h2 : oracle (normalize d) <;> simp [workerTrace, h2]

/-- Witness for `normalize_spec`: a bare hostname gains the scheme, an
`http://` URL is untouched, and the GET targets the normalized URL. -/
theorem normalize_spec_witness :
    normalize "example.com" = "https://" ++ "example.com"
    ∧ normalize "http://x.com" = "http://x.com"
    ∧ (workerTrace oracle200 "example.com").head?
        = some (WorkerAction.get (normalize "example.com")) :=
  ⟨(normalize_spec "example.com").1 (by decide),
   (normalize_spec "http://x.com").2.1 (by decide),
   (normalize_spec "example.com").2.2 oracle200⟩

/-- C6 counterexample: the claim says the emitted result carries the
domain with its scheme stripped "for every scheme prefix it may carry",
but src/wolf.go line 110 only strips `"https://"`.  For the input
`"http://example.com"` with a 200 response, the emitted `Result` carries
`"http://example.com"` — the `http://` scheme intact — not
`"example.com"`. -/
theorem emitted_domain_cex :
    (checkDomain oracle200 (NewStatusChecker 1) "http://example.com").2.Domain
        = "http://example.com"
    ∧ "http://example.com" ≠ "example.com" := by
  constructor
  · rfl
  · decide

/-- C6 (amended): for every probe returning a status in `[1, 500]`, the
emitted `Result` carries the normalized domain with a leading `"https://"`
— and only `"https://"` — stripped, and the very same string is what is
appended to `successfulDomains`; in particular an input with no scheme
comes back exactly as it was fed (normalization adds `"https://"`, the
append strips it again), while an `http`-prefixed input keeps its scheme. -/
theorem emitted_domain_stripped (oracle : Oracle) (sc : StatusChecker)
    (d : String) (s : Nat)
    (h : oracle (normalize d) = ProbeOutcome.response s)
    (h1 : 1 ≤ s) (h2 : s ≤ 500) :
    (checkDomain oracle sc d).2.Domain = trimHttps (normalize d)
    ∧ (checkDomain oracle sc d).1.successfulDomains
        = sc.successfulDomains ++ [trimHttps (normalize d)]
    ∧ (hasPfx d "http" = false → (checkDomain oracle sc d).2.Domain = d) := by
  have hcd := checkDomain_eq oracle sc d
  have hse : successEntry oracle d = some (trimHttps (normalize d)) := by
    simp [successEntry, h, h1, h2]
  have hres : resultOf oracle d
      = { Domain := trimHttps (normalize d), StatusCode := s, Error := none } := by
    simp [resultOf, checkDomain, h, h1, h2]
  refine ⟨by rw [hcd]; simp [hres], by rw [hcd]; simp [hse], fun hw => ?_⟩
  rw [hcd]
  simp only [hres]
  show trimHttps (normalize d) = d
  rw [normalize]
  simp only [hw, Bool.false_eq_true, if_false]
  exact trimHttps_append d

/-- Witness for `emitted_domain_stripped` at a bare hostname with a 200
response. -/
theorem emitted_domain_stripped_witness :
    (checkDomain oracle200 (NewStatusChecker 1) "example.com").2.Domain
        = trimHttps (normalize "example.com")
    ∧ (checkDomain oracle200 (NewStatusChecker 1) "example.com").1.successfulDomains
        = (NewStatusChecker 1).successfulDomains ++ [trimHttps (normalize "example.com")]
    ∧ (hasPfx "example.com" "http" = false →
        (checkDomain oracle200 (NewStatusChecker 1) "example.com").2.Domain
          = "example.com") :=
  emitted_domain_stripped oracle200 (NewStatusChecker 1) "example.com" 200
    rfl (by omega) (by omega)

/-- C7 counterexample: the claim says the worker "reads and discards the
response body" before emitting; src/wolf.go only runs the deferred
`resp.Body.Close()` (line 105) — there is no `io.Copy`/`ReadAll` of the
body anywhere — so the worker's action trace for a successful probe
contains a close action but no read of the body. -/
theorem body_read_cex :
    workerTrace oracle200 "example.com"
        = [WorkerAction.get "https://example.com", WorkerAction.closeBody,
           WorkerAction.emit
             { Domain := "example.com", StatusCode := 200, Error := none }]
    ∧ WorkerAction.readBody ∉ workerTrace oracle200 "example.com" := by
  constructor
  · rfl
  · decide

/-- C7 (amended): for every probe that receives an HTTP response, the
worker closes the response body — without reading it — before emitting
the `ProbeResult` for that domain: its trace is exactly the GET, the
deferred close (running when `checkDomain` returns), and only then the
send on the result channel. -/
theorem body_closed_before_emit (oracle : Oracle) (d : String) (s : Nat)
    (h : oracle (normalize d) = ProbeOutcome.response s) :
    workerTrace oracle d
        = [WorkerAction.get (normalize d), WorkerAction.closeBody,
           WorkerAction.emit (resultOf oracle d)]
    ∧ WorkerAction.readBody ∉ workerTrace oracle d := by
  have ht : workerTrace oracle d
      = [WorkerAction.get (normalize d), WorkerAction.closeBody,
         WorkerAction.emit (resultOf oracle d)] := by
    simp [workerTrace, h]
  refine ⟨ht, ?_⟩
  rw [ht]
  simp

/-- Witness for `body_closed_before_emit` at a 200 response. -/
theorem body_closed_before_emit_witness :
    workerTrace oracle200 "a.com"
        = [WorkerAction.get (normalize "a.com"), WorkerAction.closeBody,
           WorkerAction.emit (resultOf oracle200 "a.com")]
    ∧ WorkerAction.readBody ∉ workerTrace oracle200 "a.com" :=
  body_closed_before_emit oracle200 "a.com" 200 rfl

/-- C8: on a transport/protocol error the worker produces a `Result` with
the error populated and the status code left at its zero value (no status
code is ever assigned: the error branch prints `000`), does not touch
`successfulDomains`, performs exactly one GET (no retry — the trace holds
a single `get` action), and continues with the remaining queued domains,
emitting one result for every one of them: a failure never terminates the
worker's loop. -/
theorem transport_error_handling (oracle : Oracle) (sc : StatusChecker)
    (d msg : String) (rest : List String)
    (h : oracle (normalize d) = ProbeOutcome.failure msg) :
    checkDomain oracle sc d
        = (sc, { Domain := normalize d, StatusCode := 0, Error := some msg })
    ∧ workerTrace oracle d
        = [WorkerAction.get (normalize d),
           WorkerAction.emit
             { Domain := normalize d, StatusCode := 0, Error := some msg }]
    ∧ (workerRun oracle sc (d :: rest)).2
        = { Domain := normalize d, StatusCode := 0, Error := some msg }
            :: rest.map (resultOf oracle)
    ∧ (workerRun oracle sc (d :: rest)).2.length = rest.length + 1 := by
  have hres : resultOf oracle d
      = { Domain := normalize d, StatusCode := 0, Error := some msg } := by
    simp [resultOf, checkDomain, h]
  refine ⟨?_, ?_, ?_, ?_⟩
  · simp [checkDomain, h]
  · simp [workerTrace, h, hres]
  · rw [workerRun_eq]
    simp [hres]
  · rw [workerRun_eq]
    simp

/-- Witness for `transport_error_handling`: a refused connection on the
first of two domains. -/
theorem transport_error_handling_witness :
    checkDomain oracleDown (NewStatusChecker 2) "a.com"
        = (NewStatusChecker 2,
           { Domain := normalize "a.com", StatusCode := 0,
             Error := some "connection refused" })
    ∧ workerTrace oracleDown "a.com"
        = [WorkerAction.get (normalize "a.com"),
           WorkerAction.emit
             { Domain := normalize "a.com", StatusCode := 0,
               Error := some "connection refused" }]
    ∧ (workerRun oracleDown (NewStatusChecker 2) ["a.com", "b.com"]).2
        = { Domain := normalize "a.com", StatusCode := 0,
            Error := some "connection refused" }
            :: (["b.com"] : List String).map (resultOf oracleDown)
    ∧ (workerRun oracleDown (NewStatusChecker 2) ["a.com", "b.com"]).2.length
        = (["b.com"] : List String).length + 1 :=
  transport_error_handling oracleDown (NewStatusChecker 2) "a.com"
    "connection refused" ["b.com"] rfl

/-- C9: the process exits non-zero (with an error message) iff the file
path argument is missing (`len(os.Args) < 2`), the file cannot be opened,
or the file contains no usable (non-blank after trimming) domains; in each
of those cases no worker has started and zero results were produced, and
otherwise it exits zero after printing the full summary, having produced
one result per usable domain. -/
theorem main_exit_spec (argv : List String) (fs : String → Option (List String))
    (oracle : Oracle) :
    ((mainRun argv fs oracle).exitCode ≠ 0 ↔
       (argv.length < 2
        ∨ (∃ p, argv.get? 1 = some p ∧ fs p = none)
        ∨ (∃ p ls, argv.get? 1 = some p ∧ fs p = some ls
             ∧ ls.filterMap readLine = [])))
    ∧ ((mainRun argv fs oracle).exitCode ≠ 0 →
         (mainRun argv fs oracle).resultsProduced = 0
         ∧ (mainRun argv fs oracle).workersStarted = false
         ∧ (mainRun argv fs oracle).summaryPrinted = false)
    ∧ ((mainRun argv fs oracle).exitCode = 0 →
         (mainRun argv fs oracle).workersStarted = true
         ∧ (mainRun argv fs oracle).summaryPrinted = true
         ∧ ∀ p ls, argv.get? 1 = some p → fs p = some ls →
             (mainRun argv fs oracle).resultsProduced
               = (ls.filterMap readLine).length) := by
  match argv with
  | [] =>
      refine ⟨?_, ?_, ?_⟩ <;> simp [mainRun]
  | [a] =>
      refine ⟨?_, ?_, ?_⟩ <;> simp [mainRun]
  | a :: b :: t =>
      have hlen2 : ¬(t.length + 1 + 1 < 2) := by omega
      cases hfs : fs b with
      | none =>
          refine ⟨?_, ?_, ?_⟩ <;> simp [mainRun, hlen2, hfs]
      | some ls =>
          by_cases hdl : (ls.filterMap readLine).length = 0
          · have hnil : ls.filterMap readLine = [] := List.eq_nil_of_length_eq_zero hdl
            refine ⟨?_, ?_, ?_⟩
            · simp [mainRun, hlen2, hfs, hdl]
              exact List.filterMap_eq_nil.mp hnil
            · simp [mainRun, hlen2, hfs, hdl]
            · simp [mainRun, hlen2, hfs, hdl]
          · have hcon : ¬ ∀ x ∈ ls, readLine x = none := by
              intro hall
              exact hdl (by rw [List.filterMap_eq_nil.mpr hall]; rfl)
            refine ⟨?_, ?_, ?_⟩
            · simp [mainRun, hlen2, hfs, hdl, hcon]
            · simp [mainRun, hlen2, hfs, hdl]
            · intro _
              refine ⟨?_, ?_, ?_⟩
              · simp [mainRun, hlen2, hfs, hdl]
              · simp [mainRun, hlen2, hfs, hdl]
              · intro p ls1 hp hl
                have hpb : b = p := Option.some.inj hp
                subst hpb
                rw [hfs] at hl
                cases hl
                simp [mainRun, hlen2, hfs, hdl, workerRun_eq]

/-- Witness for `main_exit_spec`, exercising both a fatal case (missing
argument: no results, no worker, no summary) and the success case (one
usable domain: summary printed, one result produced). -/
theorem main_exit_spec_witness :
    ((mainRun ["wolf"] (fun _ => none) oracle200).resultsProduced = 0
     ∧ (mainRun ["wolf"] (fun _ => none) oracle200).workersStarted = false
     ∧ (mainRun ["wolf"] (fun _ => none) oracle200).summaryPrinted = false)
    ∧ ((mainRun ["wolf", "hosts.txt"] (fun _ => some [" a.com ", ""])
          oracle200).workersStarted = true
       ∧ (mainRun ["wolf", "hosts.txt"] (fun _ => some [" a.com ", ""])
            oracle200).summaryPrinted = true
       ∧ ∀ p ls, (["wolf", "hosts.txt"] : List String).get? 1 = some p →
           (fun _ => some ([" a.com ", ""] : List String)) p = some ls →
             (mainRun ["wolf", "hosts.txt"] (fun _ => some [" a.com ", ""])
                oracle200).resultsProduced = (ls.filterMap readLine).length) :=
  ⟨(main_exit_spec ["wolf"] (fun _ => none) oracle200).2.1 (by decide),
   (main_exit_spec ["wolf", "hosts.txt"] (fun _ => some [" a.com ", ""])
      oracle200).2.2 (by decide)⟩

/-- C10: the summary's failed count is `totalDomains` minus the length of
`successfulDomains` (src/wolf.go line 238), which over a full run counts
exactly the non-qualifying input occurrences; consequently a domain whose
probe returned a status above 500 has its per-result line printed through
the non-error success-styled branch (its `Error` is nil, the status is
carried), yet it contributed no entry to `successfulDomains` and is
counted as failed in the summary. -/
theorem failed_count_spec (oracle : Oracle) (domains : List String)
    (d : String) (s : Nat) (hmem : d ∈ domains)
    (h : oracle (normalize d) = ProbeOutcome.response s) (hgt : 500 < s) :
    domains.length
        - (workerRun oracle (NewStatusChecker domains.length)
            domains).1.successfulDomains.length
      = (domains.countP fun x => !(qualifies oracle x))
    ∧ resultOf oracle d ∈ domains.map (resultOf oracle)
    ∧ printBranch (resultOf oracle d) = PrintBranch.successLine
    ∧ (resultOf oracle d).Error = none
    ∧ (resultOf oracle d).StatusCode = s
    ∧ qualifies oracle d = false := by
  have hns : ¬(1 ≤ s ∧ s ≤ 500) := by omega
  have hres : resultOf oracle d
      = { Domain := normalize d, StatusCode := s, Error := none } := by
    simp [resultOf, checkDomain, h, hns]
  refine ⟨?_, List.mem_map_of_mem _ hmem, ?_, ?_, ?_, ?_⟩
  · rw [workerRun_eq, countP_not_qualifies]
    simp [NewStatusChecker, length_filterMap_successEntry]
  · simp [printBranch, hres]
  · simp [hres]
  · simp [hres]
  · simp [qualifies, h]
    omega

/-- Witness for `failed_count_spec`: a single domain answering 501. -/
theorem failed_count_spec_witness :
    (["x.com"] : List String).length
        - (workerRun oracle501 (NewStatusChecker (["x.com"] : List String).length)
            ["x.com"]).1.successfulDomains.length
      = ((["x.com"] : List String).countP fun x => !(qualifies oracle501 x))
    ∧ resultOf oracle501 "x.com"
        ∈ (["x.com"] : List String).map (resultOf oracle501)
    ∧ printBranch (resultOf oracle501 "x.com") = PrintBranch.successLine
    ∧ (resultOf oracle501 "x.com").Error = none
    ∧ (resultOf oracle501 "x.com").StatusCode = 501
    ∧ qualifies oracle501 "x.com" = false :=
  failed_count_spec oracle501 ["x.com"] "x.com" 501 (by simp) rfl (by omega)

end HostHunter
